import Mathlib

/-!
Verification of the model-selection, prompt-formatting and generation
error-handling logic of `src/app.py` (an ingredient/cuisine form that asks a
remote generative-language service for a dinner suggestion).

The shallow embedding below translates the decision logic of the source:

* `selectModel` embeds the model capability discovery and selection routine of
  `initialize_gemini` (src/app.py lines 52-87): filter the catalog to the
  descriptors advertising the "generateContent" operation, scan a fixed
  priority list, and fall back to the first capable descriptor.
* `generate_dinner_suggestion_prompt` embeds the f-string template of
  `generate_dinner_suggestion` (src/app.py lines 96-117).
* `generate_dinner_suggestion_result` embeds the try/except around the remote
  generation call (src/app.py lines 119-130), with the remote client's
  behaviour abstracted as its result (returned text or raised error message).
* `handle_submit` embeds the button handler of `main` (src/app.py
  lines 177-186): the all-ingredients-empty guard in front of generation.
-/

/-- One entry of the remote model catalog, as consumed by
`initialize_gemini`: the fully qualified model name (e.g.
"models/gemini-2.5-flash") and, when the attribute is present at all, the
list of supported generation methods.  `none` models a descriptor object
lacking the `supported_generation_methods` attribute (the source guards every
read of that attribute with `hasattr`/`getattr`). -/
structure ModelDescriptor where
  name : String
  supported_generation_methods : Option (List String)
deriving Repr, DecidableEq

/-- Python's `str.split(sep)` for a single-character separator, at the
character-list level: splits on every occurrence of `sep`, keeping empty
pieces, and always returns at least one piece. -/
def splitOnChar (sep : Char) : List Char → List (List Char)
  | [] => [[]]
  | c :: rest =>
    match splitOnChar sep rest with
    | [] => [[]]
    | grp :: grps =>
      if c = sep then [] :: grp :: grps else (c :: grp) :: grps

/-- The identifier the source derives from a descriptor:
`model.name.split('/')[-1]` (src/app.py lines 47, 55, 62). -/
def modelShortName (d : ModelDescriptor) : String :=
  String.mk ((splitOnChar '/' d.name.data).getLastD [])

/-- Capability filter of src/app.py line 54: the descriptor has the
`supported_generation_methods` attribute and that list contains
"generateContent". -/
def isCapable (d : ModelDescriptor) : Bool :=
  match d.supported_generation_methods with
  | some methods => methods.contains "generateContent"
  | none => false

/-- The `supported_models` list built by the loop of src/app.py lines 52-56:
the short names of the capable descriptors, in catalog order. -/
def supported_models (catalog : List ModelDescriptor) : List String :=
  (catalog.filter isCapable).map modelShortName

/-- The fixed priority list of src/app.py line 72. -/
def priority_models : List String :=
  ["gemini-3-flash-preview", "gemini-2.5-flash", "gemini-2.0-flash", "gemini-pro-latest"]

/-- Outcome of the selection routine: either a chosen model identifier
(the source proceeds to `GenerativeModel(selected_model)`) or the
no-capable-model failure (the source reports an error and returns `None`,
src/app.py lines 66-69). -/
inductive SelectionResult where
  | selected : String → SelectionResult
  | noCapableModel : SelectionResult
deriving Repr, DecidableEq

/-- The priority scan of src/app.py lines 75-78: return the first priority
name that occurs among the available (capable) model names. -/
def scanPriorities (priorities available : List String) : Option String :=
  match priorities with
  | [] => none
  | p :: rest => if available.contains p then some p else scanPriorities rest available

/-- The model selection routine of `initialize_gemini` (src/app.py
lines 52-87): build `supported_models`, fail when it is empty (lines 66-69),
otherwise scan the priority list (lines 75-78) and fall back to
`supported_models[0]` (lines 80-82). -/
def selectModel (catalog : List ModelDescriptor) (priorities : List String) : SelectionResult :=
  let available := supported_models catalog
  if available.isEmpty then
    SelectionResult.noCapableModel
  else
    match scanPriorities priorities available with
    | some p => SelectionResult.selected p
    | none => SelectionResult.selected (available.headD "")

example :
    selectModel
      [⟨"models/gemini-pro-latest", some ["generateContent"]⟩,
       ⟨"models/gemini-2.5-flash", some ["generateContent"]⟩]
      priority_models = SelectionResult.selected "gemini-2.5-flash" := by decide

example :
    selectModel [⟨"models/legacy-model", some ["generateContent"]⟩]
      priority_models = SelectionResult.selected "legacy-model" := by decide

example :
    selectModel [⟨"models/embedding-only", some ["embedText"]⟩]
      priority_models = SelectionResult.noCapableModel := by decide

/-! Helper lemmas about the selection routine. -/

theorem scanPriorities_eq_some_mem {priorities available : List String} {p : String}
    (h : scanPriorities priorities available = some p) : p ∈ available := by
  induction priorities with
  | nil => simp [scanPriorities] at h
  | cons q rest ih =>
    by_cases hq : q ∈ available
    · simp [scanPriorities, hq] at h
      exact h ▸ hq
    · simp [scanPriorities, hq] at h
      exact ih h

theorem scanPriorities_first {available : List String} (pre : List String) (p : String)
    (post : List String) (hp : p ∈ available) (hpre : ∀ q ∈ pre, q ∉ available) :
    scanPriorities (pre ++ p :: post) available = some p := by
  induction pre with
  | nil => simp [scanPriorities, hp]
  | cons q pre ih =>
    have hq : q ∉ available := hpre q (List.mem_cons_self q pre)
    have hpre' : ∀ r ∈ pre, r ∉ available := fun r hr => hpre r (List.mem_cons_of_mem _ hr)
    simpa [scanPriorities, hq] using ih hpre'

theorem scanPriorities_eq_none {priorities available : List String}
    (h : ∀ q ∈ priorities, q ∉ available) : scanPriorities priorities available = none := by
  induction priorities with
  | nil => rfl
  | cons q rest ih =>
    have hq : q ∉ available := h q (List.mem_cons_self q rest)
    simpa [scanPriorities, hq] using ih (fun r hr => h r (List.mem_cons_of_mem _ hr))

theorem supported_models_ne_nil_of_mem {catalog : List ModelDescriptor} {p : String}
    (hp : p ∈ supported_models catalog) : (supported_models catalog).isEmpty = false := by
  cases hsm : supported_models catalog with
  | nil => rw [hsm] at hp; cases hp
  | cons a t => rfl

theorem selectModel_eq_noCapable_iff (catalog : List ModelDescriptor)
    (priorities : List String) :
    selectModel catalog priorities = SelectionResult.noCapableModel ↔
      supported_models catalog = [] := by
  unfold selectModel
  by_cases he : supported_models catalog = []
  · simp [he]
  · have hb : (supported_models catalog).isEmpty = false := by
      simpa [List.isEmpty_iff] using he
    simp only [hb, Bool.false_eq_true, if_false]
    cases hs : scanPriorities priorities (supported_models catalog) <;> simp [he]

theorem selectModel_selected_mem {catalog : List ModelDescriptor} {priorities : List String}
    {id : String} (h : selectModel catalog priorities = SelectionResult.selected id) :
    id ∈ supported_models catalog := by
  unfold selectModel at h
  by_cases he : supported_models catalog = []
  · simp [he] at h
  · have hb : (supported_models catalog).isEmpty = false := by
      simpa [List.isEmpty_iff] using he
    simp only [hb, Bool.false_eq_true, if_false] at h
    cases hs : scanPriorities priorities (supported_models catalog) with
    | some p =>
      rw [hs] at h
      simp only [SelectionResult.selected.injEq] at h
      exact h ▸ scanPriorities_eq_some_mem hs
    | none =>
      rw [hs] at h
      cases hsm : supported_models catalog with
      | nil => exact absurd hsm he
      | cons a t =>
        rw [hsm] at h
        simp only [List.headD_cons, SelectionResult.selected.injEq] at h
        exact h ▸ List.mem_cons_self a t

theorem mem_supported_models {catalog : List ModelDescriptor} {p : String} :
    p ∈ supported_models catalog ↔
      ∃ d, d ∈ catalog ∧ isCapable d = true ∧ modelShortName d = p := by
  unfold supported_models
  constructor
  · intro hp
    obtain ⟨d, hd, hdp⟩ := List.mem_map.mp hp
    exact ⟨d, (List.mem_filter.mp hd).1, (List.mem_filter.mp hd).2, hdp⟩
  · rintro ⟨d, hd, hcap, rfl⟩
    exact List.mem_map.mpr ⟨d, List.mem_filter.mpr ⟨hd, hcap⟩, rfl⟩

/-! Claim theorems about the model selector. -/

/-- C1: for every catalog with a capable descriptor and every priority list of
the form `pre ++ p :: post` where `p` names a capable descriptor and no entry
of `pre` does, `selectModel` returns `p` — the earliest matching priority-list
entry wins, scanning in priority-list order. -/
theorem selectModel_earliest_priority_wins (catalog : List ModelDescriptor)
    (pre post : List String) (p : String)
    (hp : p ∈ supported_models catalog)
    (hpre : ∀ q ∈ pre, q ∉ supported_models catalog) :
    selectModel catalog (pre ++ p :: post) = SelectionResult.selected p := by
  unfold selectModel
  simp only [supported_models_ne_nil_of_mem hp, Bool.false_eq_true, if_false,
    scanPriorities_first pre p post hp hpre]

theorem selectModel_earliest_priority_wins_witness :
    selectModel [⟨"models/alpha", some ["generateContent"]⟩]
      (["missing-model"] ++ "alpha" :: []) = SelectionResult.selected "alpha" :=
  selectModel_earliest_priority_wins _ ["missing-model"] [] "alpha" (by decide) (by decide)

/-- C2: when no priority-list entry names a capable descriptor and `d` is the
first capable descriptor in catalog order, `selectModel` falls back to `d`'s
identifier. -/
theorem selectModel_fallback_first_capable (catalog : List ModelDescriptor)
    (priorities : List String) (d : ModelDescriptor) (rest : List ModelDescriptor)
    (hnone : ∀ q ∈ priorities, q ∉ supported_models catalog)
    (hfirst : catalog.filter isCapable = d :: rest) :
    selectModel catalog priorities = SelectionResult.selected (modelShortName d) := by
  have hsm : supported_models catalog = modelShortName d :: rest.map modelShortName := by
    unfold supported_models
    rw [hfirst]
    rfl
  rw [hsm] at hnone
  simp [selectModel, hsm, scanPriorities_eq_none hnone]

theorem selectModel_fallback_first_capable_witness :
    selectModel [⟨"models/legacy-model", some ["generateContent"]⟩] priority_models =
      SelectionResult.selected "legacy-model" :=
  selectModel_fallback_first_capable _ priority_models
    ⟨"models/legacy-model", some ["generateContent"]⟩ [] (by decide) (by decide)

/-- C3: `selectModel` fails with `noCapableModel` exactly when no catalog
descriptor supports "generateContent"; on the empty catalog it so fails; and
`noCapableModel` is the only failing constructor of `SelectionResult`. -/
theorem selectModel_noCapable_iff (catalog : List ModelDescriptor)
    (priorities : List String) :
    (selectModel catalog priorities = SelectionResult.noCapableModel ↔
      ∀ d ∈ catalog, isCapable d = false) ∧
    selectModel [] priorities = SelectionResult.noCapableModel := by
  constructor
  · rw [selectModel_eq_noCapable_iff]
    unfold supported_models
    simp [List.map_eq_nil_iff, List.filter_eq_nil_iff]
  · rfl

theorem selectModel_noCapable_iff_witness :
    selectModel [⟨"models/embedding-only", some ["embedText"]⟩] priority_models =
      SelectionResult.noCapableModel :=
  (selectModel_noCapable_iff [⟨"models/embedding-only", some ["embedText"]⟩]
    priority_models).1.mpr (by decide)

/-- C4: whenever `selectModel` returns an identifier, that identifier is the
short name of some catalog descriptor whose supported operations include
"generateContent". -/
theorem selectModel_selected_capable (catalog : List ModelDescriptor)
    (priorities : List String) (id : String)
    (h : selectModel catalog priorities = SelectionResult.selected id) :
    ∃ d, d ∈ catalog ∧ isCapable d = true ∧ modelShortName d = id :=
  mem_supported_models.mp (selectModel_selected_mem h)

theorem selectModel_selected_capable_witness :
    ∃ d, d ∈ [(⟨"models/gemini-2.5-flash", some ["generateContent"]⟩ : ModelDescriptor)] ∧
      isCapable d = true ∧ modelShortName d = "gemini-2.5-flash" :=
  selectModel_selected_capable _ priority_models "gemini-2.5-flash" (by decide)

/-- C5: the selection routine is a pure, deterministic function of the catalog
and the priority list: two invocations on identical inputs yield the identical
result. -/
theorem selectModel_deterministic (catalog : List ModelDescriptor)
    (priorities : List String) (r₁ r₂ : SelectionResult)
    (h₁ : selectModel catalog priorities = r₁)
    (h₂ : selectModel catalog priorities = r₂) : r₁ = r₂ :=
  h₁.symm.trans h₂

theorem selectModel_deterministic_witness :
    SelectionResult.selected "gemini-pro-latest" = SelectionResult.selected "gemini-pro-latest" :=
  selectModel_deterministic [⟨"models/gemini-pro-latest", some ["generateContent"]⟩]
    priority_models _ _ rfl rfl

/-- C7: on the catalog of exactly the two capable descriptors
gemini-pro-latest then gemini-2.5-flash, with the fixed priority list of the
source, the selector returns "gemini-2.5-flash" (the second priority entry,
the first one matched). -/
theorem selectModel_scenario_two_capable :
    selectModel
      [⟨"models/gemini-pro-latest", some ["generateContent"]⟩,
       ⟨"models/gemini-2.5-flash", some ["generateContent"]⟩]
      priority_models = SelectionResult.selected "gemini-2.5-flash" := by decide

/-- C10: a catalog descriptor lacking the supported-generation-methods
attribute is never capable, and a catalog consisting only of such descriptors
makes the selector fail with `noCapableModel` instead of faulting. -/
theorem selectModel_missing_methods_field (catalog : List ModelDescriptor)
    (priorities : List String)
    (hall : ∀ d ∈ catalog, d.supported_generation_methods = none) :
    (∀ d ∈ catalog, isCapable d = false) ∧
    selectModel catalog priorities = SelectionResult.noCapableModel := by
  have hcap : ∀ d ∈ catalog, isCapable d = false := by
    intro d hd
    unfold isCapable
    rw [hall d hd]
  have hnil : catalog.filter isCapable = [] :=
    List.filter_eq_nil_iff.mpr (fun d hd => by simp [hcap d hd])
  refine ⟨hcap, (selectModel_eq_noCapable_iff _ _).mpr ?_⟩
  unfold supported_models
  rw [hnil]
  rfl

theorem selectModel_missing_methods_field_witness :
    selectModel [(⟨"models/no-methods", none⟩ : ModelDescriptor)] priority_models =
      SelectionResult.noCapableModel :=
  (selectModel_missing_methods_field _ priority_models (by decide)).2

/-! Prompt formatter (src/app.py lines 94-117). -/

/-- The placeholder the source substitutes for a falsy (empty) ingredient
field: the literal "未指定" ("unspecified"). -/
def placeholder : String := "未指定"

/-- One ingredient slot of the f-string: Python's
`ingredients[i] if ingredients[i] else "未指定"`, where a string is falsy
exactly when it is empty (whitespace-only strings are truthy and inserted
verbatim). -/
def fillIngredient (x : String) : String :=
  if x = "" then placeholder else x

/-- Fixed template text before the first ingredient slot. -/
def promptHeader : String :=
  "\n以下の情報を基に、美味しい晩ごはん料理を提案してください。\n\n【食材】\n- 食材1: "

/-- Fixed template text between the first and second ingredient slots. -/
def promptMid1 : String := "\n- 食材2: "

/-- Fixed template text between the second and third ingredient slots. -/
def promptMid2 : String := "\n- 食材3: "

/-- Fixed template text between the third ingredient slot and the first
cuisine slot. -/
def promptMid3 : String := "\n\n【料理ジャンル】\n"

/-- Fixed template text between the two cuisine slots. -/
def promptMid4 : String :=
  "\n\n【提案形式】\n以下の形式で提案してください：\n\n1. 料理名\n2. 材料（リスト形式）\n3. 簡単な作り方（手順を番号で）\n4. AIのワンポイントアドバイス\n\n食材を効果的に活用し、"

/-- Fixed template text after the second cuisine slot; note that it contains
the literal "未指定" once ("未指定の食材は、…"). -/
def promptTail : String :=
  "の特色を生かした料理を提案してください。\n未指定の食材は、料理に合うものを自由に追加してください。\n"

/-- The prompt f-string of `generate_dinner_suggestion` (src/app.py
lines 96-117): the fixed template with the three ingredient slots and the
cuisine value inserted twice. -/
def generate_dinner_suggestion_prompt (i1 i2 i3 cuisine_type : String) : String :=
  promptHeader ++ fillIngredient i1 ++ promptMid1 ++ fillIngredient i2 ++
    promptMid2 ++ fillIngredient i3 ++ promptMid3 ++ cuisine_type ++
    promptMid4 ++ cuisine_type ++ promptTail

/-- Number of occurrences of the pattern `pat` in a character list: the
number of positions at which `pat` occurs as a prefix of the remaining
suffix. -/
def countOccs (pat : List Char) : List Char → Nat
  | [] => 0
  | c :: rest => (if pat <+: (c :: rest) then 1 else 0) + countOccs pat rest

/-- The placeholder "未指定" as a character list. -/
def placeholderChars : List Char := ['未', '指', '定']

example : placeholder.data = placeholderChars := by decide

/-- Number of ingredient fields the source replaces by the placeholder: the
empty (Python-falsy) ones. -/
def numEmptyIngredients (i1 i2 i3 : String) : Nat :=
  (if i1 = "" then 1 else 0) + (if i2 = "" then 1 else 0) + (if i3 = "" then 1 else 0)

/-! Generation invocation (src/app.py lines 119-130). -/

/-- Outcome of one generation attempt: the returned text, or a typed failure.
The source returns `response.text` on success and `None` on any exception; a
failure whose lowercased message contains "timeout" or "deadline" additionally
triggers the timeout warning (src/app.py lines 126-128), modelled as the
distinct sub-kind `generationTimedOut`. -/
inductive GenerationOutcome where
  | generated : String → GenerationOutcome
  | generationTimedOut : String → GenerationOutcome
  | generationFailed : String → GenerationOutcome
deriving Repr, DecidableEq

/-- Python's `str.lower()` restricted to the basic latin letters, which is all
the source relies on (the patterns matched are the ASCII words "timeout" and
"deadline"). -/
def strLower (s : String) : String :=
  String.mk (s.data.map Char.toLower)

/-- Python's substring test `needle in haystack`. -/
def pyContains (needle haystack : String) : Bool :=
  decide (needle.data <:+: haystack.data)

/-- The try/except of `generate_dinner_suggestion` (src/app.py lines 119-130):
the external client either returns text (`Except.ok`) or raises an error whose
message is the `Except.error` payload; every raised error is caught and turned
into a typed failure, sub-classified by the lowercased-message substring test
of line 127. -/
def generate_dinner_suggestion_result (clientResult : Except String String) :
    GenerationOutcome :=
  match clientResult with
  | Except.ok text => GenerationOutcome.generated text
  | Except.error e =>
    if pyContains "timeout" (strLower e) || pyContains "deadline" (strLower e) then
      GenerationOutcome.generationTimedOut e
    else
      GenerationOutcome.generationFailed e

/-! Submit handler (src/app.py lines 177-186). -/

/-- Python's `any(ingredients)` on a list of strings: true exactly when some
element is truthy, i.e. non-empty. -/
def pyAnyString (l : List String) : Bool :=
  l.any (fun s => !(s == ""))

/-- Result of one click of the submit button (src/app.py lines 177-186):
either the all-ingredients-empty warning (line 182, which returns before any
generation), or an invocation of generation with the formatted prompt. -/
inductive SubmitOutcome where
  | warnedNoIngredients : SubmitOutcome
  | invokedGeneration : String → SubmitOutcome
deriving Repr, DecidableEq

/-- The submit branch of `main` (src/app.py lines 177-186): warn and stop when
every ingredient field is empty, otherwise invoke generation on the formatted
prompt. -/
def handle_submit (i1 i2 i3 cuisine_type : String) : SubmitOutcome :=
  if !pyAnyString [i1, i2, i3] then
    SubmitOutcome.warnedNoIngredients
  else
    SubmitOutcome.invokedGeneration (generate_dinner_suggestion_prompt i1 i2 i3 cuisine_type)

example : handle_submit "" "" "" "和食" = SubmitOutcome.warnedNoIngredients := by decide

example :
    generate_dinner_suggestion_result (Except.error "Deadline Exceeded") =
      GenerationOutcome.generationTimedOut "Deadline Exceeded" := by decide

/-! Claim theorems about generation error handling and the submit guard. -/

set_option maxRecDepth 10000 in
/-- C8 counterexample: the error message "DEADLINE_EXCEEDED" contains neither
the substring "timeout" nor the substring "deadline", yet the source
classifies it as the timeout condition, because line 127 lowercases the
message before the substring test. -/
theorem generation_timeout_classification_counterexample :
    generate_dinner_suggestion_result (Except.error "DEADLINE_EXCEEDED") =
      GenerationOutcome.generationTimedOut "DEADLINE_EXCEEDED" ∧
    pyContains "timeout" "DEADLINE_EXCEEDED" = false ∧
    pyContains "deadline" "DEADLINE_EXCEEDED" = false := by decide

/-- C8 (amended): every error raised by the generation client is caught and
turned into a typed failure — never into generated text; the failure is the
`generationTimedOut` sub-kind exactly when the lowercased failure message
contains "timeout" or "deadline", and `generationFailed` otherwise; a
successful client result is returned in full as `generated` text. -/
theorem generation_outcome_classification (e t s : String) :
    (generate_dinner_suggestion_result (Except.error e) =
        GenerationOutcome.generationTimedOut e ↔
      pyContains "timeout" (strLower e) = true ∨
        pyContains "deadline" (strLower e) = true) ∧
    (generate_dinner_suggestion_result (Except.error e) =
        GenerationOutcome.generationTimedOut e ∨
      generate_dinner_suggestion_result (Except.error e) =
        GenerationOutcome.generationFailed e) ∧
    generate_dinner_suggestion_result (Except.error e) ≠ GenerationOutcome.generated s ∧
    generate_dinner_suggestion_result (Except.ok t) = GenerationOutcome.generated t := by
  unfold generate_dinner_suggestion_result
  by_cases h : pyContains "timeout" (strLower e) = true ∨ pyContains "deadline" (strLower e) = true
  · rcases h with h | h <;> simp [h]
  · push_neg at h
    obtain ⟨ha, hb⟩ := h
    simp [ha, hb]

/-- C9: generation is never invoked with all three ingredient fields empty:
whenever the submit handler invokes generation, some ingredient field is
non-empty, and on the all-empty submission it stops with the warning before
any prompt is formatted. -/
theorem submit_blocked_when_all_empty (cuisine i1 i2 i3 p : String)
    (hgen : handle_submit i1 i2 i3 cuisine = SubmitOutcome.invokedGeneration p) :
    (i1 ≠ "" ∨ i2 ≠ "" ∨ i3 ≠ "") ∧
    handle_submit "" "" "" cuisine = SubmitOutcome.warnedNoIngredients := by
  refine ⟨?_, rfl⟩
  by_contra hall
  push_neg at hall
  obtain ⟨e1, e2, e3⟩ := hall
  subst e1
  subst e2
  subst e3
  simp [handle_submit, pyAnyString] at hgen

theorem submit_blocked_when_all_empty_witness :
    ("a" ≠ "" ∨ "" ≠ "" ∨ "" ≠ "") ∧
    handle_submit "" "" "" "和食" = SubmitOutcome.warnedNoIngredients :=
  submit_blocked_when_all_empty "和食" "a" "" "" _ rfl

/-! Counting occurrences of the placeholder in the formatted prompt. -/

theorem countOccs_nil (pat : List Char) : countOccs pat [] = 0 := rfl

/-- Occurrences of a non-empty pattern cannot start inside a block `v` none of
whose characters belongs to the pattern, so such a block prepended to `b`
contributes nothing. -/
theorem countOccs_append_of_disjoint {pat : List Char} (hpat : pat ≠ [])
    (v b : List Char) (hv : ∀ ch ∈ v, ch ∉ pat) :
    countOccs pat (v ++ b) = countOccs pat b := by
  induction v with
  | nil => rfl
  | cons c v ih =>
    have hc : c ∉ pat := hv c (List.mem_cons_self c v)
    have hnp : ¬ pat <+: (c :: (v ++ b)) := by
      intro hp
      cases pat with
      | nil => exact hpat rfl
      | cons p ps =>
        have hpc : p = c := (List.cons_prefix_cons.mp hp).1
        rw [← hpc] at hc
        exact hc (List.mem_cons_self p ps)
    have hstep : countOccs pat ((c :: v) ++ b) =
        (if pat <+: (c :: (v ++ b)) then 1 else 0) + countOccs pat (v ++ b) := rfl
    rw [hstep, if_neg hnp, ih (fun ch h => hv ch (List.mem_cons_of_mem _ h))]
    omega

/-- No non-empty proper prefix of `pat` is a suffix of `t`; occurrences of
`pat` in `t ++ b` then never straddle the boundary, whatever `b` is. -/
def noSplitSuffix (pat t : List Char) : Prop :=
  ∀ k ∈ List.range pat.length, 0 < k → ¬ ((pat.take k) <:+ t)

instance (pat t : List Char) : Decidable (noSplitSuffix pat t) := by
  unfold noSplitSuffix
  infer_instance

theorem noSplitSuffix_cons {pat : List Char} {c : Char} {t : List Char}
    (h : noSplitSuffix pat (c :: t)) : noSplitSuffix pat t :=
  fun k hk hk0 hs => h k hk hk0 (hs.trans ( List.suffix_cons c t))

theorem prefix_cons_append_iff {pat : List Char} {c : Char} {t b : List Char}
    (h : noSplitSuffix pat (c :: t)) :
    pat <+: ((c :: t) ++ b) ↔ pat <+: (c :: t) := by
  constructor
  · intro hp
    by_cases hlen : pat.length ≤ (c :: t).length
    · have he := List.prefix_iff_eq_take.mp hp
      rw [List.take_append_of_le_length hlen] at he
      exact he ▸ List.take_prefix pat.length (c :: t)
    · exfalso
      push_neg at hlen
      have he := List.prefix_iff_eq_take.mp hp
      have h2 : pat.take (c :: t).length = c :: t := by
        rw [he, List.take_take, Nat.min_eq_left (Nat.le_of_lt hlen),
          List.take_append_of_le_length (Nat.le_refl _), List.take_length]
      refine h (c :: t).length (List.mem_range.mpr hlen) (Nat.succ_pos _) ?_
      rw [h2]
  · intro hp
    exact hp.trans ( List.prefix_append (c :: t) b)

/-- Splitting occurrence counting at a boundary that no occurrence can
straddle. -/
theorem countOccs_append_template {pat : List Char} (t : List Char) (b : List Char)
    (ht : noSplitSuffix pat t) :
    countOccs pat (t ++ b) = countOccs pat t + countOccs pat b := by
  induction t with
  | nil => simp [countOccs_nil]
  | cons c t ih =>
    have hstep : countOccs pat ((c :: t) ++ b) =
        (if pat <+: ((c :: t) ++ b) then 1 else 0) + countOccs pat (t ++ b) := rfl
    have hstep2 : countOccs pat (c :: t) =
        (if pat <+: (c :: t) then 1 else 0) + countOccs pat t := rfl
    rw [hstep, hstep2, ih (noSplitSuffix_cons ht)]
    have hiff := prefix_cons_append_iff (b := b) ht
    by_cases hp : pat <+: (c :: t)
    · rw [if_pos hp, if_pos (hiff.mpr hp)]
      omega
    · rw [if_neg hp, if_neg (fun hq => hp (hiff.mp hq))]
      omega

/-- The placeholder block itself contributes exactly one occurrence: no
occurrence can start at its second or third character, whatever follows. -/
theorem countOccs_placeholder_block (b : List Char) :
    countOccs placeholderChars (placeholderChars ++ b) =
      1 + countOccs placeholderChars b := by
  have h1 : placeholderChars <+: (placeholderChars ++ b) := List.prefix_append _ _
  have h2 : ¬ placeholderChars <+: ('指' :: '定' :: b) := by
    intro hp
    have := (List.cons_prefix_cons.mp hp).1
    exact absurd this (by decide)
  have h3 : ¬ placeholderChars <+: ('定' :: b) := by
    intro hp
    have := (List.cons_prefix_cons.mp hp).1
    exact absurd this (by decide)
  have hstep : countOccs placeholderChars (placeholderChars ++ b) =
      (if placeholderChars <+: (placeholderChars ++ b) then 1 else 0) +
      ((if placeholderChars <+: ('指' :: '定' :: b) then 1 else 0) +
       ((if placeholderChars <+: ('定' :: b) then 1 else 0) +
        countOccs placeholderChars b)) := rfl
  rw [hstep, if_pos h1, if_neg h2, if_neg h3]
  omega

/-- One ingredient slot contributes one occurrence when the field is empty
(the placeholder is substituted) and none when it is non-empty and uses no
character of the placeholder. -/
theorem countOccs_fill (x : String) (b : List Char)
    (hx : ∀ ch ∈ x.data, ch ∉ placeholderChars) :
    countOccs placeholderChars ((fillIngredient x).data ++ b) =
      (if x = "" then 1 else 0) + countOccs placeholderChars b := by
  by_cases hx0 : x = ""
  · have hfe : fillIngredient x = placeholder := by simp [fillIngredient, hx0]
    have hpd : placeholder.data = placeholderChars := by decide
    rw [if_pos hx0, hfe, hpd]
    exact countOccs_placeholder_block b
  · have hfe : fillIngredient x = x := by simp [fillIngredient, hx0]
    rw [if_neg hx0, hfe, countOccs_append_of_disjoint (by decide) x.data b hx]
    omega

/-! Claim theorems about the prompt formatter. -/

set_option maxRecDepth 10000 in
/-- C6 counterexample: with all three ingredient fields present (so zero
absent-or-blank fields) the claim requires zero occurrences of the
placeholder, but the formatted prompt contains "未指定" once — the fixed
closing instruction of the template ("未指定の食材は、…", src/app.py
line 116) mentions it independently of the inputs. -/
theorem formatPrompt_placeholder_counterexample :
    countOccs placeholderChars
      (generate_dinner_suggestion_prompt "鶏肉" "玉ねぎ" "人参" "和食").data = 1 ∧
    numEmptyIngredients "鶏肉" "玉ねぎ" "人参" = 0 := by decide

set_option maxRecDepth 10000 in
/-- C6 (amended): `generate_dinner_suggestion_prompt` is total; for all
ingredient fields and cuisine values that use no character of the placeholder
"未指定", the result is a non-empty string, contains the cuisine value
verbatim twice (both occurrences identical), and contains "未指定" exactly
`1 + (number of empty ingredient fields)` times: one occurrence per empty
(Python-falsy) field — a whitespace-only field is truthy and inserted
verbatim — plus one occurrence contributed by the fixed template tail. -/
theorem formatPrompt_total_amended (i1 i2 i3 c : String)
    (h1 : ∀ ch ∈ i1.data, ch ∉ placeholderChars)
    (h2 : ∀ ch ∈ i2.data, ch ∉ placeholderChars)
    (h3 : ∀ ch ∈ i3.data, ch ∉ placeholderChars)
    (hc : ∀ ch ∈ c.data, ch ∉ placeholderChars) :
    generate_dinner_suggestion_prompt i1 i2 i3 c ≠ "" ∧
    (∃ s t u : String,
      generate_dinner_suggestion_prompt i1 i2 i3 c = s ++ c ++ t ++ c ++ u) ∧
    countOccs placeholderChars (generate_dinner_suggestion_prompt i1 i2 i3 c).data =
      1 + numEmptyIngredients i1 i2 i3 := by
  have hcount : countOccs placeholderChars
      (generate_dinner_suggestion_prompt i1 i2 i3 c).data =
      1 + numEmptyIngredients i1 i2 i3 := by
    simp only [generate_dinner_suggestion_prompt, String.data_append, List.append_assoc]
    rw [countOccs_append_template promptHeader.data _ (by decide)]
    rw [countOccs_fill i1 _ h1]
    rw [countOccs_append_template promptMid1.data _ (by decide)]
    rw [countOccs_fill i2 _ h2]
    rw [countOccs_append_template promptMid2.data _ (by decide)]
    rw [countOccs_fill i3 _ h3]
    rw [countOccs_append_template promptMid3.data _ (by decide)]
    rw [countOccs_append_of_disjoint (by decide) c.data _ hc]
    rw [countOccs_append_template promptMid4.data _ (by decide)]
    rw [countOccs_append_of_disjoint (by decide) c.data _ hc]
    have hH : countOccs placeholderChars promptHeader.data = 0 := by decide
    have hM1 : countOccs placeholderChars promptMid1.data = 0 := by decide
    have hM2 : countOccs placeholderChars promptMid2.data = 0 := by decide
    have hM3 : countOccs placeholderChars promptMid3.data = 0 := by decide
    have hM4 : countOccs placeholderChars promptMid4.data = 0 := by decide
    have hT : countOccs placeholderChars promptTail.data = 1 := by decide
    rw [hH, hM1, hM2, hM3, hM4, hT]
    unfold numEmptyIngredients
    omega
  have hne : generate_dinner_suggestion_prompt i1 i2 i3 c ≠ "" := by
    intro h0
    rw [h0] at hcount
    have h00 : countOccs placeholderChars ("" : String).data = 0 := rfl
    rw [h00] at hcount
    unfold numEmptyIngredients at hcount
    omega
  refine ⟨hne, ⟨promptHeader ++ fillIngredient i1 ++ promptMid1 ++ fillIngredient i2 ++
    promptMid2 ++ fillIngredient i3 ++ promptMid3, promptMid4, promptTail, ?_⟩, hcount⟩
  simp [generate_dinner_suggestion_prompt, String.append_assoc]

set_option maxRecDepth 10000 in
theorem formatPrompt_total_amended_witness :
    countOccs placeholderChars
      (generate_dinner_suggestion_prompt "chicken" "" "carrot" "イタリアン").data =
      1 + numEmptyIngredients "chicken" "" "carrot" :=
  (formatPrompt_total_amended "chicken" "" "carrot" "イタリアン"
    (by decide) (by decide) (by decide) (by decide)).2.2
